import Mathlib

/-!
Verification of the MCP process lifecycle manager (src/mcpManager.js) and its
route handlers (src/api.js) against the natural-language specification.

The JavaScript manager is shallowly embedded: the registry (a JS `Map` from
composite key to entry) becomes an association list, the child-process handle
becomes its pid plus the `proc.killed` flag, timestamps are `Int`
milliseconds, and each synchronous segment of the single-threaded JS event
loop becomes one atomic step of a transition system.
-/

namespace MCP

/-- Launch specification for a child process, from the route body
`config: \x7bcommand, args, env?\x7d`.  An absent `env` is the empty list. -/
structure Config where
  command : String
  args : List String
  env : List (String × String)
deriving Repr, DecidableEq

/-- Models `JSON.stringify(config)` (mcpManager.js line 330): a deterministic
serialization of the config used only for string-equality comparison.
Structurally equal configs serialize equally, which is the only property the
manager relies on. -/
def configFingerprint (c : Config) : String :=
  c.command ++ "\x1f" ++ String.intercalate "\x1f" c.args ++ "\x1e"
    ++ String.intercalate "\x1e" (c.env.map (fun p => p.1 ++ "=" ++ p.2))

/-- One registry entry (mcpManager.js lines 473-482).  The JS `proc` handle is
modelled by its `pid` and the `proc.killed` flag. -/
structure Entry where
  pid : Nat
  killed : Bool
  config : Config
  configHash : String
  lastHit : Int
  ttlMs : Int
  clientId : String
  MCPServerName : String
  isInitialized : Bool
  lastPing : Option Int
deriving Repr, DecidableEq

/-- Association-list lookup keyed by strings; models `Map.get`. -/
def lookupA {α : Type} : List (String × α) → String → Option α
  | [], _ => none
  | (k, v) :: t, key => if k = key then some v else lookupA t key

/-- Models `Map.delete`: removes every pair with the given key. -/
def eraseA {α : Type} : List (String × α) → String → List (String × α)
  | [], _ => []
  | p :: t, key => if p.1 = key then eraseA t key else p :: eraseA t key

/-- Models `Map.set` for a fresh binding: the stale binding (if any) is
removed and the new one added. -/
def insertA {α : Type} (l : List (String × α)) (key : String) (v : α) : List (String × α) :=
  (key, v) :: eraseA l key

/-- In-place mutation of the entry stored under each key, as JS does with
`entry.field = ...`; keys and list order are unchanged. -/
def mapEntries (f : String → Entry → Entry) : List (String × Entry) → List (String × Entry)
  | [] => []
  | p :: t => (p.1, f p.1 p.2) :: mapEntries f t

/-- Composite registry key, from `_generateKey` (mcpManager.js line 191). -/
def generateKey (clientId MCPServerName : String) : String :=
  clientId ++ ":" ++ MCPServerName

/-- The manager's shared mutable state: `this.registry` and
`this.initializingProcesses` (mcpManager.js lines 25-28), plus fresh-name
sources for OS pids and for identifying in-flight startup operations. -/
structure MgrState where
  registry : List (String × Entry)
  inFlight : List (String × Nat)
  nextPid : Nat
  nextOp : Nat
deriving Repr, DecidableEq

/-- The record `ensureProcess` resolves with
(`\x7bproc, wasAlreadyRunning, uniqueKey, initialized\x7d`); `initialized` is the
boolean the `initialized` promise resolves with. -/
structure EnsureResult where
  pid : Nat
  wasAlreadyRunning : Bool
  uniqueKey : String
  initialized : Bool
deriving Repr, DecidableEq

/-- What the synchronous segment of an `ensureProcess` call does:
join an in-flight startup (line 337), reuse a live initialized entry with the
same fingerprint (line 345), or start a new process (line 373). -/
inductive EnsureOutcome where
  | awaitedInFlight (opId : Nat)
  | reused (r : EnsureResult)
  | started (opId : Nat) (pid : Nat) (terminatedPrev : Option Nat)
deriving Repr, DecidableEq

/-- Result delivered to the caller that started operation `opId` once
`_doEnsureProcess` finishes (lines 508-513): `wasAlreadyRunning = false`. -/
def starterResult (pid : Nat) (uniqueKey : String) (success : Bool) : EnsureResult :=
  { pid := pid, wasAlreadyRunning := false, uniqueKey := uniqueKey, initialized := success }

/-- Result delivered to a caller that awaited an in-flight startup
(line 341): the same record re-tagged `wasAlreadyRunning = true`. -/
def joinerResult (r : EnsureResult) : EnsureResult :=
  { r with wasAlreadyRunning := true }

/-- The synchronous prefix of `_doEnsureProcess` (lines 405-484) followed by
the in-flight bookkeeping of `ensureProcess` (line 381): spawn a fresh pid,
register the not-yet-initialized entry, and record the in-flight operation.
In JS these statements run in one uninterruptible segment of the event loop,
so they form one atomic step. -/
def spawnNew (st : MgrState) (uniqueKey : String) (cfg : Config) (configHash : String)
    (ttlMs now : Int) (clientId MCPServerName : String) (terminatedPrev : Option Nat) :
    EnsureOutcome × MgrState :=
  let entry : Entry :=
    { pid := st.nextPid, killed := false, config := cfg, configHash := configHash,
      lastHit := now, ttlMs := ttlMs, clientId := clientId,
      MCPServerName := MCPServerName, isInitialized := false, lastPing := none }
  (EnsureOutcome.started st.nextOp st.nextPid terminatedPrev,
   { registry := insertA st.registry uniqueKey entry,
     inFlight := insertA st.inFlight uniqueKey st.nextOp,
     nextPid := st.nextPid + 1,
     nextOp := st.nextOp + 1 })

/-- The synchronous segment of `ensureProcess` (mcpManager.js lines 328-384):
in-flight check first, then reuse of a live initialized entry with an equal
fingerprint (updating `lastHit`), otherwise termination of a live previous
process and a fresh spawn. -/
def ensureProcess (st : MgrState) (clientId MCPServerName : String) (cfg : Config)
    (ttlMs now : Int) : EnsureOutcome × MgrState :=
  let uniqueKey := generateKey clientId MCPServerName
  let configHash := configFingerprint cfg
  match lookupA st.inFlight uniqueKey with
  | some opId => (EnsureOutcome.awaitedInFlight opId, st)
  | none =>
    match lookupA st.registry uniqueKey with
    | some existing =>
      if existing.configHash = configHash ∧ existing.killed = false ∧
          existing.isInitialized = true then
        let touched :=
          mapEntries (fun k e => if k = uniqueKey then { e with lastHit := now } else e)
            st.registry
        (EnsureOutcome.reused
          { pid := existing.pid, wasAlreadyRunning := true, uniqueKey := uniqueKey,
            initialized := true },
         { st with registry := touched })
      else
        spawnNew st uniqueKey cfg configHash ttlMs now clientId MCPServerName
          (if existing.killed = false then some existing.pid else none)
    | none => spawnNew st uniqueKey cfg configHash ttlMs now clientId MCPServerName none

/-- Resumption of `_doEnsureProcess` after the handshake finished with
`success` (lines 491-506) together with the `finally` block of
`ensureProcess` (line 388): on success the entry still registered under the
key is marked initialized; on failure nothing is killed; in both cases the
in-flight marker is removed. -/
def completeStep (st : MgrState) (uniqueKey : String) (success : Bool) : MgrState :=
  let marked :=
    mapEntries (fun k e => if k = uniqueKey then { e with isInitialized := true } else e)
      st.registry
  let st1 := if success then { st with registry := marked } else st
  { st1 with inFlight := eraseA st1.inFlight uniqueKey }

/-- The `exit`/`error` handler registered on every spawned process
(lines 451-470): the registry entry for the key is deleted. -/
def processExitStep (st : MgrState) (uniqueKey : String) : MgrState :=
  { st with registry := eraseA st.registry uniqueKey }

/-- `getProcess` (lines 522-533): `null` for an absent or killed entry,
otherwise the handle, touching `lastHit`. -/
def getProcess (st : MgrState) (now : Int) (clientId MCPServerName : String) :
    Option Nat × MgrState :=
  let key := generateKey clientId MCPServerName
  match lookupA st.registry key with
  | none => (none, st)
  | some e =>
    if e.killed then (none, st)
    else
      let touched :=
        mapEntries (fun k x => if k = key then { x with lastHit := now } else x) st.registry
      (some e.pid, { st with registry := touched })

/-- `isInitialized` (lines 659-664). -/
def isInitialized (st : MgrState) (clientId MCPServerName : String) : Bool :=
  match lookupA st.registry (generateKey clientId MCPServerName) with
  | some e => !e.killed && e.isInitialized
  | none => false

/-- The `\x7bhealthy, reason?\x7d` record returned by `isHealthy`. -/
structure Health where
  healthy : Bool
  reason : Option String
deriving Repr, DecidableEq

/-- `isHealthy` (lines 672-695).  `probe pid` models
`process.kill(pid, 0)` succeeding, i.e. the OS-level liveness probe. -/
def isHealthy (probe : Nat → Bool) (st : MgrState) (clientId MCPServerName : String) :
    Health :=
  match lookupA st.registry (generateKey clientId MCPServerName) with
  | none => { healthy := false, reason := some "Process not found" }
  | some e =>
    if e.killed then { healthy := false, reason := some "Process killed" }
    else if !e.isInitialized then { healthy := false, reason := some "Not initialized" }
    else if probe e.pid then { healthy := true, reason := none }
    else { healthy := false, reason := some "Process not responding (zombie)" }

/-- `killProcess` (lines 625-636): `false` for an absent or already-killed
entry; otherwise the process is terminated and the entry deleted from the
registry. -/
def killProcess (st : MgrState) (clientId MCPServerName : String) : Bool × MgrState :=
  let key := generateKey clientId MCPServerName
  match lookupA st.registry key with
  | none => (false, st)
  | some e =>
    if e.killed then (false, st)
    else (true, { st with registry := eraseA st.registry key })

/-- Character codes of a string. -/
def strCodes (s : String) : List Nat := s.data.map Char.toNat

/-- ASCII lower-casing of a string's character codes; models
`String.prototype.toLowerCase()` for the names the sensitive-term match
inspects. -/
def lowerCodes (s : String) : List Nat :=
  (strCodes s).map (fun n => if 65 ≤ n ∧ n ≤ 90 then n + 32 else n)

/-- Whether `needle` is a prefix of `hay` (code lists). -/
def codesPrefix : List Nat → List Nat → Bool
  | [], _ => true
  | _ :: _, [] => false
  | a :: as, b :: bs => a == b && codesPrefix as bs

/-- Whether `needle` occurs as a contiguous substring of `hay`; models JS
`String.prototype.includes`. -/
def codesIncl (needle : List Nat) : List Nat → Bool
  | [] => needle.isEmpty
  | c :: rest => codesPrefix needle (c :: rest) || codesIncl needle rest

/-- `hay.includes(needle)` on strings. -/
def strIncludes (hay needle : String) : Bool :=
  codesIncl (strCodes needle) (strCodes hay)

/-- The fixed sensitive-term list of `_redactSensitiveConfig`
(mcpManager.js lines 53-60). -/
def sensitiveKeys : List String :=
  ["password", "pass", "key", "secret", "token", "auth"]

/-- The fixed redaction marker. -/
def REDACTED : String := "[REDACTED]"

/-- Case-insensitive substring match of a name against the sensitive-term
list, as in lines 65-66 and 76-79: the lower-cased name must contain one of
the (already lower-case) sensitive terms. -/
def isSensitiveName (name : String) : Bool :=
  sensitiveKeys.any (fun s => codesIncl (strCodes s) (lowerCodes name))

/-- Env-variable redaction (lines 62-70): the value of every variable whose
name matches a sensitive term is replaced by the marker. -/
def redactEnv (env : List (String × String)) : List (String × String) :=
  env.map (fun p => if isSensitiveName p.1 then (p.1, REDACTED) else p)

/-- Argument redaction (lines 72-85): an argument is replaced by the marker
exactly when the preceding original argument (the empty string for the first
argument) matches a sensitive term.  Pairing each argument with its
predecessor is done with `zip` against the shifted list. -/
def redactArgs (args : List String) : List String :=
  (args.zip ("" :: args)).map (fun p => if isSensitiveName p.2 then REDACTED else p.1)

/-- `_redactSensitiveConfig` (lines 51-88). -/
def redactSensitiveConfig (c : Config) : Config :=
  { c with env := redactEnv c.env, args := redactArgs c.args }

/-- Recursive characterization of `redactArgs`: `prev` carries the argument
preceding the current head. -/
def redactArgsFrom (prev : String) : List String → List String
  | [] => []
  | a :: t => (if isSensitiveName prev then REDACTED else a) :: redactArgsFrom a t

/-- The example config of the specification's redaction test. -/
def cfgSecret : Config :=
  { command := "npx", args := ["--key", "xyz"], env := [("GITHUB_TOKEN", "abc")] }

/-- One element of the array `listClientServers` returns (lines 557-566). -/
structure ServerSummary where
  MCPServerName : String
  uniqueKey : String
  pid : Nat
  lastHit : Int
  lastPing : Option Int
  ttlMs : Int
  config : Config
  isInitialized : Bool
deriving Repr, DecidableEq

/-- `listClientServers` (lines 552-571): the live entries of one client,
with redacted config.  Read-only: the state is not changed. -/
def listClientServers (st : MgrState) (clientId : String) : List ServerSummary :=
  (st.registry.filter (fun p => decide (p.2.clientId = clientId) && !p.2.killed)).map
    (fun p =>
      { MCPServerName := p.2.MCPServerName, uniqueKey := p.1, pid := p.2.pid,
        lastHit := p.2.lastHit, lastPing := p.2.lastPing, ttlMs := p.2.ttlMs,
        config := redactSensitiveConfig p.2.config, isInitialized := p.2.isInitialized })

/-- One element of the array `listActiveProcesses` returns (lines 602-612). -/
structure ProcSummary where
  uniqueKey : String
  clientId : String
  MCPServerName : String
  pid : Nat
  lastHit : Int
  lastPing : Option Int
  ttlMs : Int
  config : Config
  isInitialized : Bool
deriving Repr, DecidableEq

/-- `listActiveProcesses` (lines 597-617): all live entries, with redacted
config.  Read-only. -/
def listActiveProcesses (st : MgrState) : List ProcSummary :=
  (st.registry.filter (fun p => !p.2.killed)).map
    (fun p =>
      { uniqueKey := p.1, clientId := p.2.clientId,
        MCPServerName := p.2.MCPServerName, pid := p.2.pid, lastHit := p.2.lastHit,
        lastPing := p.2.lastPing, ttlMs := p.2.ttlMs,
        config := redactSensitiveConfig p.2.config, isInitialized := p.2.isInitialized })

/-- The keys collected by the sweep loop (lines 580-587): entries whose idle
time `now - lastHit` strictly exceeds their own `ttlMs`. -/
def expiredKeys (now : Int) (st : MgrState) : List String :=
  (st.registry.filter (fun p => decide (now - p.2.lastHit > p.2.ttlMs))).map Prod.fst

/-- `sweepExpiredProcesses` (lines 576-591): collect the expired keys,
terminate each such process, then delete the collected keys. -/
def sweepExpiredProcesses (now : Int) (st : MgrState) : MgrState :=
  { st with registry := (expiredKeys now st).foldl (fun r k => eraseA r k) st.registry }

/-- The ping-eligibility test of the heartbeat loop (lines 834-838): live,
initialized, and not pinged within the last 80% of the interval.
`intervalMs * 4 / 5` equals `PING_INTERVAL_MS * 0.8` exactly, because the
interval is an integral number of minutes. -/
def pingDue (now intervalMs : Int) (e : Entry) : Bool :=
  !e.killed && e.isInitialized &&
    (match e.lastPing with
     | none => true
     | some lp => decide (now - lp > intervalMs * 4 / 5))

/-- `pingActiveConnections` (lines 817-874): for every eligible entry whose
stdin write succeeds (`writeOk pid` models `proc.stdin.write` returning
true), `lastPing` is set to `now`; no other entry field is touched. -/
def pingActiveConnections (now intervalMs : Int) (writeOk : Nat → Bool) (st : MgrState) :
    MgrState :=
  let pinged :=
    mapEntries
      (fun _ e =>
        if pingDue now intervalMs e && writeOk e.pid then { e with lastPing := some now }
        else e)
      st.registry
  { st with registry := pinged }

/-- A JSON object scanned out of a stdout line, reduced to the two fields the
handshake inspects: its `id` and whether it carries a `result` field. -/
structure JsonLine where
  id : Option Nat
  hasResult : Bool
deriving Repr, DecidableEq

/-- The handshake timeout constant (mcpManager.js line 15). -/
def INIT_TIMEOUT_MS : Int := 30000

/-- The boolean `_initializeMCPServer` (lines 201-318) resolves with, as a
function of the JSON objects the child writes to stdout before the timeout:
true exactly when some object has this initialization's id and a `result`
field; with no matching response the timeout callback resolves `false` and
does not kill the process. -/
def initializeMCPServer (initId : Nat) (stdoutObjects : List JsonLine) : Bool :=
  stdoutObjects.any (fun m => m.id == some initId && m.hasResult)

/-- `this.jsonRpcIdCounter++` (lines 203 and 789): returns the id handed out
and the new counter value. -/
def nextJsonRpcId (counter : Nat) : Nat × Nat :=
  (counter, counter + 1)

/-- The id produced by the `n`-th consecutive draw from the counter. -/
def drawnId (counter n : Nat) : Nat := counter + n

/-- The id `_initializeMCPServer` consumes (line 203): one counter draw. -/
def initializeRequestId (counter : Nat) : Nat × Nat := nextJsonRpcId counter

/-- The id `_sendPing` consumes (line 789): one counter draw. -/
def pingRequestId (counter : Nat) : Nat × Nat := nextJsonRpcId counter

/-- The JSON-RPC id the GET /details handler puts in its `tools/list`
request (api.js: `id: 2`), together with the untouched counter: the handler
never consults `jsonRpcIdCounter`. -/
def detailsRequestId (counter : Nat) : Nat × Nat :=
  (2, counter)

/-- The JSON-RPC id the POST /run handler puts in a `tools/call` request
(api.js: `id: Date.now()`), together with the untouched counter. -/
def runRequestId (nowMs : Nat) (counter : Nat) : Nat × Nat :=
  (nowMs, counter)

/-- A process-exit event observed while a correlated call is pending:
its time and the `(code, signal)` pair the `exit` event carries. -/
structure ExitInfo where
  atMs : Int
  code : Option Int
  signal : Option String
deriving Repr, DecidableEq

/-- How a deferred route response is produced: by the `processExitHandler`
(an immediate failure carrying the exit code and signal), or by the timeout
callback (the accumulated output, reported as success). -/
inductive CallOutcome where
  | terminatedDuring (code : Option Int) (signal : Option String)
  | completedAtTimeout
deriving Repr, DecidableEq

/-- Default for `API_RESPONSE_TIMEOUT_MS` (api.js), used by GET /details. -/
def API_RESPONSE_TIMEOUT_MS : Int := 3000

/-- Default for `API_RUN_TIMEOUT_MS` (api.js), used by POST /run. -/
def API_RUN_TIMEOUT_MS : Int := 5000

/-- Time and outcome of the POST /run handler's deferred response: the
handler registers `processExitHandler` with `proc.once("exit", ...)`, so an
exit before the timeout answers immediately with the exit code and signal;
the timeout callback removes that listener and answers with the output. -/
def runResponse (timeoutMs : Int) (exitEvent : Option ExitInfo) : Int × CallOutcome :=
  match exitEvent with
  | some ex =>
    if ex.atMs < timeoutMs then (ex.atMs, CallOutcome.terminatedDuring ex.code ex.signal)
    else (timeoutMs, CallOutcome.completedAtTimeout)
  | none => (timeoutMs, CallOutcome.completedAtTimeout)

/-- Time and outcome of the GET /details handler's deferred response: the
handler installs only stdout/stderr listeners and the timeout callback — no
exit listener — so the response always arrives at the timeout with the
accumulated output, whatever happens to the process meanwhile. -/
def detailsResponse (timeoutMs : Int) (_exitEvent : Option ExitInfo) : Int × CallOutcome :=
  (timeoutMs, CallOutcome.completedAtTimeout)

/-- The outcome of the guard sequence shared by POST /run and GET /details
(api.js): 404 when `getProcess` returns null, 410 when the returned handle is
already killed, 400 when `isInitialized` is false, otherwise the handler
proceeds with the handle. -/
inductive RouteGate where
  | notFound
  | gone
  | notInitialized
  | proceed (pid : Nat)
deriving Repr, DecidableEq

/-- The /run (and /details) guard: `getProcess`, then the `proc.killed`
re-check, then the `isInitialized` check, all in one synchronous segment. -/
def runRouteGate (st : MgrState) (now : Int) (clientId MCPServerName : String) :
    RouteGate × MgrState :=
  let res := getProcess st now clientId MCPServerName
  match res.1 with
  | none => (RouteGate.notFound, res.2)
  | some pid =>
    match lookupA res.2.registry (generateKey clientId MCPServerName) with
    | some e =>
      if e.killed then (RouteGate.gone, res.2)
      else if !(isInitialized res.2 clientId MCPServerName) then
        (RouteGate.notInitialized, res.2)
      else (RouteGate.proceed pid, res.2)
    | none => (RouteGate.gone, res.2)

/-- The statements of the synchronous segment of an `ensureProcess` call
that starts a new process, in source order: the in-flight-map check
(line 336), the existing-entry check (line 345), termination of a live
previous process (line 366), then the synchronous prefix of
`_doEnsureProcess` — entered by the call on line 373 — which spawns the
child (line 441) and registers the entry (line 484), and only after that
call returns, `this.initializingProcesses.set(...)` (line 381) and the await
(line 384). -/
inductive MicroAction where
  | checkInFlightMap
  | checkExistingEntry
  | terminatePreviousProcess
  | spawnChildProcess
  | registerRegistryEntry
  | setInFlightMarker
  | awaitOperationResult
deriving Repr, DecidableEq, BEq

/-- Source order of the micro-actions listed above. -/
def ensureStartMicroOrder : List MicroAction :=
  [MicroAction.checkInFlightMap, MicroAction.checkExistingEntry,
   MicroAction.terminatePreviousProcess, MicroAction.spawnChildProcess,
   MicroAction.registerRegistryEntry, MicroAction.setInFlightMarker,
   MicroAction.awaitOperationResult]

/-- The atomic steps of the manager: each constructor is one synchronous
segment of the JS event loop (nothing can interleave inside one of them). -/
inductive MEvent where
  | ensure (clientId MCPServerName : String) (cfg : Config) (ttlMs now : Int)
  | complete (uniqueKey : String) (success : Bool)
  | procExit (uniqueKey : String)
  | kill (clientId MCPServerName : String)
  | sweep (now : Int)
  | getProc (clientId MCPServerName : String) (now : Int)
  | heartbeat (now intervalMs : Int) (writeOk : Nat → Bool)

/-- State transition of one atomic step. -/
def mstep (st : MgrState) : MEvent → MgrState
  | MEvent.ensure c s cfg ttl now => (ensureProcess st c s cfg ttl now).2
  | MEvent.complete key success => completeStep st key success
  | MEvent.procExit key => processExitStep st key
  | MEvent.kill c s => (killProcess st c s).2
  | MEvent.sweep now => sweepExpiredProcesses now st
  | MEvent.getProc c s now => (getProcess st now c s).2
  | MEvent.heartbeat now iv f => pingActiveConnections now iv f st

/-- Run a sequence of atomic steps. -/
def runTrace (st : MgrState) (events : List MEvent) : MgrState :=
  events.foldl mstep st

/-- Whether an event is the completion of the in-flight startup for `key`. -/
def completesKey (e : MEvent) (key : String) : Bool :=
  match e with
  | MEvent.complete k _ => k == key
  | _ => false

/-- A sample launch config for concrete scenarios. -/
def cfg0 : Config := { command := "npx", args := ["-y", "srv"], env := [] }

/-- The manager's initial state: empty registry, nothing in flight. -/
def st0 : MgrState := { registry := [], inFlight := [], nextPid := 1, nextOp := 0 }

/-- State right after a first `ensureProcess "c" "s"` spawned pid 1 and
installed in-flight operation 0, before the handshake finished. -/
def stA : MgrState := (ensureProcess st0 "c" "s" cfg0 900000 0).2

/-- State after that startup completed with a failed handshake: pid 1 stays
registered, uninitialized, and the in-flight marker is gone. -/
def stB : MgrState := completeStep stA "c:s" false

/-- State after that startup completed with a successful handshake. -/
def stC : MgrState := completeStep stA "c:s" true

/-- Events of other keys used in concrete traces. -/
def evs1 : List MEvent := [MEvent.getProc "a" "b" 3, MEvent.sweep 10]

/-- The registry entry stored under `c:s` in state `stC`. -/
def eC : Entry :=
  { pid := 1, killed := false, config := cfg0, configHash := configFingerprint cfg0,
    lastHit := 0, ttlMs := 900000, clientId := "c", MCPServerName := "s",
    isInitialized := true, lastPing := none }

theorem lookupA_eraseA_self {α : Type} (l : List (String × α)) (key : String) :
    lookupA (eraseA l key) key = none := by
  induction l with
  | nil => rfl
  | cons p t ih =>
    by_cases h : p.1 = key
    · simpa [eraseA, h] using ih
    · simpa [eraseA, lookupA, h] using ih

theorem lookupA_eraseA_ne {α : Type} (l : List (String × α)) (key k : String)
    (h : k ≠ key) : lookupA (eraseA l key) k = lookupA l k := by
  induction l with
  | nil => rfl
  | cons p t ih =>
    by_cases hp : p.1 = key
    · have hpk : p.1 ≠ k := by rw [hp]; exact fun hk => h hk.symm
      simp [eraseA, hp, lookupA, hpk, Ne.symm h, ih]
    · by_cases hk : p.1 = k
      · simp [eraseA, hp, lookupA, hk, h]
      · simp [eraseA, hp, lookupA, hk, ih]

theorem lookupA_insertA_self {α : Type} (l : List (String × α)) (key : String) (v : α) :
    lookupA (insertA l key v) key = some v := by
  simp [insertA, lookupA]

theorem lookupA_insertA_ne {α : Type} (l : List (String × α)) (key k : String) (v : α)
    (h : k ≠ key) : lookupA (insertA l key v) k = lookupA l k := by
  have : key ≠ k := fun hk => h hk.symm
  simp [insertA, lookupA, this, lookupA_eraseA_ne l key k h]

theorem lookupA_mem {α : Type} {l : List (String × α)} {key : String} {v : α}
    (h : lookupA l key = some v) : (key, v) ∈ l := by
  induction l with
  | nil => simp [lookupA] at h
  | cons p t ih =>
    obtain ⟨a, b⟩ := p
    by_cases hp : a = key
    · subst hp
      simp only [lookupA, if_pos] at h
      injection h with h
      subst h
      exact List.mem_cons_self _ _
    · simp only [lookupA, if_neg hp] at h
      exact List.mem_cons_of_mem _ (ih h)

theorem mem_lookupA {α : Type} {l : List (String × α)} {key : String} {v : α}
    (hnd : (l.map Prod.fst).Nodup) (h : (key, v) ∈ l) : lookupA l key = some v := by
  induction l with
  | nil => simp at h
  | cons p t ih =>
    rcases List.mem_cons.mp h with h1 | h2
    · subst h1
      simp [lookupA]
    · have hne : p.1 ≠ key := by
        intro hk
        have : key ∈ t.map Prod.fst := List.mem_map_of_mem Prod.fst h2
        rw [List.map_cons, List.nodup_cons] at hnd
        exact hnd.1 (hk ▸ this)
      have ht : (t.map Prod.fst).Nodup := by
        rw [List.map_cons, List.nodup_cons] at hnd
        exact hnd.2
      simp [lookupA, hne, ih ht h2]

theorem lookupA_eq_none {α : Type} {l : List (String × α)} {key : String}
    (h : lookupA l key = none) : ∀ v, (key, v) ∉ l := by
  intro v hv
  induction l with
  | nil => simp at hv
  | cons p t ih =>
    rcases List.mem_cons.mp hv with h1 | h2
    · subst h1
      simp [lookupA] at h
    · by_cases hp : p.1 = key
      · simp [lookupA, hp] at h
      · simp only [lookupA, hp, if_neg, not_false_iff] at h
        exact ih h h2

theorem lookupA_mapEntries (f : String → Entry → Entry) (l : List (String × Entry))
    (key : String) :
    lookupA (mapEntries f l) key = (lookupA l key).map (f key) := by
  induction l with
  | nil => rfl
  | cons p t ih =>
    by_cases hp : p.1 = key
    · subst hp
      simp [mapEntries, lookupA, ih]
    · simp [mapEntries, lookupA, hp, ih]

theorem keys_mapEntries (f : String → Entry → Entry) (l : List (String × Entry)) :
    (mapEntries f l).map Prod.fst = l.map Prod.fst := by
  induction l with
  | nil => rfl
  | cons p t ih => simp [mapEntries, ih]


theorem ensureProcess_joins (st : MgrState) (c s : String) (cfg : Config) (ttl now : Int)
    (op : Nat) (hin : lookupA st.inFlight (generateKey c s) = some op) :
    ensureProcess st c s cfg ttl now = (EnsureOutcome.awaitedInFlight op, st) := by
  simp [ensureProcess, hin]

theorem ensureProcess_inFlight_ne (st : MgrState) (c s : String) (cfg : Config)
    (ttl now : Int) (k : String) (hk : k ≠ generateKey c s) :
    lookupA (ensureProcess st c s cfg ttl now).2.inFlight k = lookupA st.inFlight k := by
  cases hfl : lookupA st.inFlight (generateKey c s) with
  | some opId => simp [ensureProcess, hfl]
  | none =>
    cases hreg : lookupA st.registry (generateKey c s) with
    | some ex =>
      by_cases hc : ex.configHash = configFingerprint cfg ∧ ex.killed = false ∧
          ex.isInitialized = true
      · simp [ensureProcess, hfl, hreg, hc]
      · simp [ensureProcess, spawnNew, hfl, hreg, hc,
          lookupA_insertA_ne st.inFlight (generateKey c s) k st.nextOp hk]
    | none =>
      simp [ensureProcess, spawnNew, hfl, hreg,
        lookupA_insertA_ne st.inFlight (generateKey c s) k st.nextOp hk]

theorem ensureProcess_started_marker (st : MgrState) (c s : String) (cfg : Config)
    (ttl now : Int) (op pid : Nat) (prev : Option Nat)
    (h : (ensureProcess st c s cfg ttl now).1 = EnsureOutcome.started op pid prev) :
    lookupA st.inFlight (generateKey c s) = none
    ∧ lookupA (ensureProcess st c s cfg ttl now).2.inFlight (generateKey c s) = some op := by
  cases hfl : lookupA st.inFlight (generateKey c s) with
  | some opId => simp [ensureProcess, hfl] at h
  | none =>
    refine ⟨rfl, ?_⟩
    cases hreg : lookupA st.registry (generateKey c s) with
    | some ex =>
      by_cases hc : ex.configHash = configFingerprint cfg ∧ ex.killed = false ∧
          ex.isInitialized = true
      · simp [ensureProcess, hfl, hreg, hc] at h
      · simp only [ensureProcess, spawnNew, hfl, hreg, if_neg hc] at h ⊢
        simp only [EnsureOutcome.started.injEq] at h
        simp [lookupA_insertA_self, h.1]
    | none =>
      simp only [ensureProcess, spawnNew, hfl, hreg] at h ⊢
      simp only [EnsureOutcome.started.injEq] at h
      simp [lookupA_insertA_self, h.1]

theorem completeStep_inFlight_self (st : MgrState) (key : String) (success : Bool) :
    lookupA (completeStep st key success).inFlight key = none := by
  cases success <;> simp [completeStep, lookupA_eraseA_self]

theorem completeStep_inFlight_ne (st : MgrState) (key k : String) (success : Bool)
    (h : k ≠ key) :
    lookupA (completeStep st key success).inFlight k = lookupA st.inFlight k := by
  cases success <;> simp [completeStep, lookupA_eraseA_ne _ _ _ h]

theorem killProcess_inFlight (st : MgrState) (c s : String) :
    (killProcess st c s).2.inFlight = st.inFlight := by
  cases h : lookupA st.registry (generateKey c s) with
  | none => simp [killProcess, h]
  | some e => by_cases hk : e.killed <;> simp [killProcess, h, hk]

theorem getProcess_inFlight (st : MgrState) (now : Int) (c s : String) :
    (getProcess st now c s).2.inFlight = st.inFlight := by
  cases h : lookupA st.registry (generateKey c s) with
  | none => simp [getProcess, h]
  | some e => by_cases hk : e.killed <;> simp [getProcess, h, hk]

theorem mstep_preserves_inFlight (st : MgrState) (e : MEvent) (key : String) (op : Nat)
    (hin : lookupA st.inFlight key = some op) (hnc : completesKey e key = false) :
    lookupA (mstep st e).inFlight key = some op := by
  cases e with
  | ensure c s cfg ttl now =>
    by_cases hk : key = generateKey c s
    · subst hk
      have := ensureProcess_joins st c s cfg ttl now op hin
      simp only [mstep, this]
      exact hin
    · simp only [mstep]
      rw [ensureProcess_inFlight_ne st c s cfg ttl now key hk]
      exact hin
  | complete k su =>
    have hk : key ≠ k := by
      intro h
      subst h
      simp [completesKey] at hnc
    simp only [mstep]
    rw [completeStep_inFlight_ne st k key su hk]
    exact hin
  | procExit k => exact hin
  | kill c s =>
    simp only [mstep]
    rw [killProcess_inFlight]
    exact hin
  | sweep now => exact hin
  | getProc c s now =>
    simp only [mstep]
    rw [getProcess_inFlight]
    exact hin
  | heartbeat now iv f => exact hin

theorem runTrace_preserves_inFlight (events : List MEvent) (st : MgrState) (key : String)
    (op : Nat) (hin : lookupA st.inFlight key = some op)
    (hnc : ∀ e ∈ events, completesKey e key = false) :
    lookupA (runTrace st events).inFlight key = some op := by
  induction events generalizing st with
  | nil => exact hin
  | cons e t ih =>
    have h1 := mstep_preserves_inFlight st e key op hin (hnc e (List.mem_cons_self e t))
    exact ih (mstep st e) h1 (fun x hx => hnc x (List.mem_cons_of_mem e hx))


/-- C1, counterexample.  The claim says the in-flight marker is installed
before any spawn begins.  In the source the spawn (mcpManager.js line 441)
and the registry insertion (line 484) execute inside the synchronous prefix
of the `_doEnsureProcess` call made on line 373, and
`this.initializingProcesses.set(...)` (line 381) runs only after that call
returns: in program order the spawn strictly precedes the installation of
the marker. -/
theorem c1_counterexample_marker_after_spawn :
    ensureStartMicroOrder.indexOf MicroAction.spawnChildProcess
      < ensureStartMicroOrder.indexOf MicroAction.setInFlightMarker := by decide

/-- C1, amended.  While a startup for a key is in flight, the marker
survives every manager step that is not the completion of that startup; any
`ensureProcess` call for the same key in that window returns the same
pending operation unchanged (and its caller receives the operation's result
re-tagged `wasAlreadyRunning = true`, hence the same process); completion
removes the marker; and a spawn can only happen in a step that finds no
marker and installs one in the same atomic step — so at most one spawn
attempt per key is in flight at any instant.  (The marker is installed
immediately after the spawn inside one uninterruptible segment, not before
the spawn as the claim words it.) -/
theorem c1_inflight_dedup (st : MgrState) (key : String) (op : Nat)
    (events : List MEvent) (hin : lookupA st.inFlight key = some op)
    (hnc : ∀ e ∈ events, completesKey e key = false) :
    lookupA (runTrace st events).inFlight key = some op
    ∧ (∀ c s cfg ttl now, generateKey c s = key →
        ensureProcess (runTrace st events) c s cfg ttl now
          = (EnsureOutcome.awaitedInFlight op, runTrace st events))
    ∧ (∀ success,
        lookupA (completeStep (runTrace st events) key success).inFlight key = none)
    ∧ (∀ st2 c s cfg ttl now op2 pid prev,
        (ensureProcess st2 c s cfg ttl now).1 = EnsureOutcome.started op2 pid prev →
        lookupA st2.inFlight (generateKey c s) = none
          ∧ lookupA (ensureProcess st2 c s cfg ttl now).2.inFlight (generateKey c s)
              = some op2)
    ∧ (∀ r : EnsureResult, joinerResult r = { r with wasAlreadyRunning := true }) := by
  have hpres := runTrace_preserves_inFlight events st key op hin hnc
  refine ⟨hpres, ?_, ?_, ?_, ?_⟩
  · intro c s cfg ttl now hk
    apply ensureProcess_joins
    rw [hk]
    exact hpres
  · intro success
    exact completeStep_inFlight_self _ key success
  · intro st2 c s cfg ttl now op2 pid prev h
    exact ensureProcess_started_marker st2 c s cfg ttl now op2 pid prev h
  · intro r
    rfl

/-- Witness for C1: the state after a first ensure for key `c:s` has
operation 0 in flight; no event of `evs1` completes it, and the amended
guarantees hold there. -/
theorem c1_inflight_dedup_witness :
    lookupA stA.inFlight "c:s" = some 0
    ∧ (∀ e ∈ evs1, completesKey e "c:s" = false)
    ∧ (lookupA (runTrace stA evs1).inFlight "c:s" = some 0
      ∧ (∀ c s cfg ttl now, generateKey c s = "c:s" →
          ensureProcess (runTrace stA evs1) c s cfg ttl now
            = (EnsureOutcome.awaitedInFlight 0, runTrace stA evs1))
      ∧ (∀ success,
          lookupA (completeStep (runTrace stA evs1) "c:s" success).inFlight "c:s" = none)
      ∧ (∀ st2 c s cfg ttl now op2 pid prev,
          (ensureProcess st2 c s cfg ttl now).1 = EnsureOutcome.started op2 pid prev →
          lookupA st2.inFlight (generateKey c s) = none
            ∧ lookupA (ensureProcess st2 c s cfg ttl now).2.inFlight (generateKey c s)
                = some op2)
      ∧ (∀ r : EnsureResult, joinerResult r = { r with wasAlreadyRunning := true })) :=
  ⟨by decide, by decide, c1_inflight_dedup stA "c:s" 0 evs1 (by decide) (by decide)⟩

/-- C2, counterexample.  In state `stB` the entry for `c:s` is live and its
fingerprint equals the fingerprint of the requested config, yet
`ensureProcess` does not reuse it: because the entry is not initialized, the
reuse test on mcpManager.js line 345 fails, pid 1 is terminated (line 366)
and a fresh pid 2 is spawned — fingerprint equality is not the sole
criterion. -/
theorem c2_counterexample_same_fingerprint_respawns :
    (lookupA stB.registry "c:s").map Entry.configHash = some (configFingerprint cfg0)
    ∧ (lookupA stB.registry "c:s").map Entry.killed = some false
    ∧ (ensureProcess stB "c" "s" cfg0 900000 5).1
        = EnsureOutcome.started 1 2 (some 1) := by decide

/-- C2, amended.  For a live registered entry with no startup in flight,
reuse requires fingerprint equality AND a completed handshake: in that case
the entry is returned with `wasAlreadyRunning = true`, only its `lastHit`
changes, and nothing is spawned (`nextPid` and the in-flight map are
unchanged); with a different fingerprint — or an unfinished handshake — the
old process is terminated and a fresh entry with a new pid replaces it. -/
theorem c2_reuse_criterion (st : MgrState) (c s : String) (cfg : Config)
    (ttl now : Int) (e : Entry)
    (hfl : lookupA st.inFlight (generateKey c s) = none)
    (hreg : lookupA st.registry (generateKey c s) = some e)
    (hlive : e.killed = false) :
    (e.configHash = configFingerprint cfg → e.isInitialized = true →
      (ensureProcess st c s cfg ttl now).1
          = EnsureOutcome.reused
              { pid := e.pid, wasAlreadyRunning := true, uniqueKey := generateKey c s,
                initialized := true }
        ∧ lookupA (ensureProcess st c s cfg ttl now).2.registry (generateKey c s)
            = some { e with lastHit := now }
        ∧ (ensureProcess st c s cfg ttl now).2.nextPid = st.nextPid
        ∧ (ensureProcess st c s cfg ttl now).2.inFlight = st.inFlight)
    ∧ (e.configHash ≠ configFingerprint cfg ∨ e.isInitialized = false →
      (ensureProcess st c s cfg ttl now).1
          = EnsureOutcome.started st.nextOp st.nextPid (some e.pid)
        ∧ lookupA (ensureProcess st c s cfg ttl now).2.registry (generateKey c s)
            = some { pid := st.nextPid, killed := false, config := cfg,
                     configHash := configFingerprint cfg, lastHit := now, ttlMs := ttl,
                     clientId := c, MCPServerName := s, isInitialized := false,
                     lastPing := none }) := by
  constructor
  · intro hhash hinit
    have hc : e.configHash = configFingerprint cfg ∧ e.killed = false ∧
        e.isInitialized = true := ⟨hhash, hlive, hinit⟩
    refine ⟨?_, ?_, ?_, ?_⟩
    · simp [ensureProcess, hfl, hreg, hc]
    · simp [ensureProcess, hfl, hreg, hc, lookupA_mapEntries, Option.map]
    · simp [ensureProcess, hfl, hreg, hc]
    · simp [ensureProcess, hfl, hreg, hc]
  · intro hne
    have hc2 : ¬(e.configHash = configFingerprint cfg ∧ e.isInitialized = true) := by
      rcases hne with hne | hne
      · exact fun hcc => hne hcc.1
      · intro hcc
        rw [hne] at hcc
        exact Bool.false_ne_true hcc.2
    constructor
    · simp [ensureProcess, spawnNew, hfl, hreg, hlive, hc2]
    · simp [ensureProcess, spawnNew, hfl, hreg, hlive, hc2, lookupA_insertA_self]

/-- Witness for C2: in state `stC` (live, initialized entry for `c:s` with
pid 1), a second `ensureProcess` with the identical config reuses the entry
with `wasAlreadyRunning = true` and spawns nothing. -/
theorem c2_reuse_criterion_witness :
    lookupA stC.inFlight "c:s" = none
    ∧ (lookupA stC.registry "c:s").map Entry.killed = some false
    ∧ (ensureProcess stC "c" "s" cfg0 900000 5).1
        = EnsureOutcome.reused
            { pid := 1, wasAlreadyRunning := true, uniqueKey := "c:s", initialized := true }
    ∧ (ensureProcess stC "c" "s" cfg0 900000 5).2.nextPid = stC.nextPid := by
  refine ⟨by decide, by decide, ?_, ?_⟩
  · have h := (c2_reuse_criterion stC "c" "s" cfg0 900000 5
      { pid := 1, killed := false, config := cfg0, configHash := configFingerprint cfg0,
        lastHit := 0, ttlMs := 900000, clientId := "c", MCPServerName := "s",
        isInitialized := true, lastPing := none }
      (by decide) (by decide) (by decide)).1 (by decide) (by decide)
    exact h.1
  · have h := (c2_reuse_criterion stC "c" "s" cfg0 900000 5
      { pid := 1, killed := false, config := cfg0, configHash := configFingerprint cfg0,
        lastHit := 0, ttlMs := 900000, clientId := "c", MCPServerName := "s",
        isInitialized := true, lastPing := none }
      (by decide) (by decide) (by decide)).1 (by decide) (by decide)
    exact h.2.2.1

/-- C3, counterexample.  State `stB` is exactly the state after a handshake
timeout: pid 1 is still registered, alive and uninitialized.  The claim says
a subsequent ensure-request retries initialization against this still-running
process; instead, `ensureProcess` for the same key and config terminates
pid 1 (`terminatedPrev = some 1`) and spawns a different process, pid 2. -/
theorem c3_counterexample_next_ensure_kills_process :
    (lookupA stB.registry "c:s").map Entry.killed = some false
    ∧ (lookupA stB.registry "c:s").map Entry.isInitialized = some false
    ∧ (ensureProcess stB "c" "s" cfg0 900000 5).1
        = EnsureOutcome.started 1 2 (some 1)
    ∧ (lookupA (ensureProcess stB "c" "s" cfg0 900000 5).2.registry "c:s").map Entry.pid
        = some 2 := by decide

/-- C3, amended.  The handshake outcome is decided at the fixed 30-second
timeout: when no stdout object carries the initialization id together with a
`result` field, `_initializeMCPServer` resolves false; the failed completion
leaves the registry untouched — the spawned process stays registered and is
not killed — and only removes the in-flight marker; the starting caller
still receives the handle with `initialized = false`.  A subsequent
ensure-request, however, terminates the still-running uninitialized process
and spawns a fresh one instead of retrying initialization against it. -/
theorem c3_handshake_timeout_policy (initId : Nat) (lines : List JsonLine)
    (st : MgrState) (key : String) (pid : Nat)
    (hnone : ∀ m ∈ lines, ¬(m.id = some initId ∧ m.hasResult = true)) :
    INIT_TIMEOUT_MS = 30000
    ∧ initializeMCPServer initId lines = false
    ∧ (completeStep st key false).registry = st.registry
    ∧ (starterResult pid key false).pid = pid
    ∧ (starterResult pid key false).initialized = false
    ∧ (∀ c s cfg ttl now e,
        lookupA st.inFlight (generateKey c s) = none →
        lookupA st.registry (generateKey c s) = some e →
        e.killed = false → e.isInitialized = false →
        (ensureProcess st c s cfg ttl now).1
          = EnsureOutcome.started st.nextOp st.nextPid (some e.pid)) := by
  refine ⟨rfl, ?_, rfl, rfl, rfl, ?_⟩
  · simp only [initializeMCPServer, List.any_eq_false]
    intro m hm
    have h := hnone m hm
    simp only [Bool.and_eq_true, beq_iff_eq]
    intro hcontra
    exact h ⟨hcontra.1, hcontra.2⟩
  · intro c s cfg ttl now e hfl hreg hlive huninit
    have hc2 : ¬(e.configHash = configFingerprint cfg ∧ e.isInitialized = true) := by
      intro hcc
      rw [huninit] at hcc
      exact Bool.false_ne_true hcc.2
    simp [ensureProcess, spawnNew, hfl, hreg, hlive, hc2]

/-- Witness for C3: a silent child (its only stdout objects never match
id 7 with a result), applied in state `stB`. -/
theorem c3_handshake_timeout_policy_witness :
    (∀ m ∈ [JsonLine.mk (some 3) true, JsonLine.mk (some 7) false],
      ¬(m.id = some 7 ∧ m.hasResult = true))
    ∧ (INIT_TIMEOUT_MS = 30000
      ∧ initializeMCPServer 7 [JsonLine.mk (some 3) true, JsonLine.mk (some 7) false] = false
      ∧ (completeStep stB "c:s" false).registry = stB.registry
      ∧ (starterResult 1 "c:s" false).pid = 1
      ∧ (starterResult 1 "c:s" false).initialized = false
      ∧ (∀ c s cfg ttl now e,
          lookupA stB.inFlight (generateKey c s) = none →
          lookupA stB.registry (generateKey c s) = some e →
          e.killed = false → e.isInitialized = false →
          (ensureProcess stB c s cfg ttl now).1
            = EnsureOutcome.started stB.nextOp stB.nextPid (some e.pid))) :=
  ⟨by decide,
   c3_handshake_timeout_policy 7 [JsonLine.mk (some 3) true, JsonLine.mk (some 7) false]
     stB "c:s" 1 (by decide)⟩

/-- C4, counterexample.  The GET /details handler always uses the constant
JSON-RPC id 2 and never consults `jsonRpcIdCounter`: from counter value 5,
two consecutive /details requests carry the same id (2 = 2) while two
consecutive counter draws would be distinct — so the ad hoc
request-correlation ids are not supplied by the counter, and two concurrent
/details requests collide on id. -/
theorem c4_counterexample_details_id_constant :
    (detailsRequestId 5).1 = 2
    ∧ (detailsRequestId (detailsRequestId 5).2).1 = (detailsRequestId 5).1
    ∧ (detailsRequestId 5).2 = 5
    ∧ (nextJsonRpcId 5).1 ≠ (nextJsonRpcId (nextJsonRpcId 5).2).1 := by decide

/-- C4, amended.  The single counter supplies ids only to `initialize` and
`ping`: its consecutive draws are pairwise distinct, so no two of those
requests collide; the GET /details handler always uses the fixed id 2 and
the POST /run handler uses the `Date.now()` timestamp, neither touching the
counter. -/
theorem c4_id_sources (counter n m : Nat) (h : n ≠ m) :
    drawnId counter n ≠ drawnId counter m
    ∧ initializeRequestId counter = (counter, counter + 1)
    ∧ pingRequestId counter = (counter, counter + 1)
    ∧ (initializeRequestId counter).1 ≠ (pingRequestId (initializeRequestId counter).2).1
    ∧ (∀ k, (detailsRequestId k).1 = 2 ∧ (detailsRequestId k).2 = k)
    ∧ (∀ nowMs k, (runRequestId nowMs k).1 = nowMs ∧ (runRequestId nowMs k).2 = k) := by
  refine ⟨?_, rfl, rfl, ?_, fun k => ⟨rfl, rfl⟩, fun nowMs k => ⟨rfl, rfl⟩⟩
  · intro hc
    exact h (Nat.add_left_cancel hc)
  · simp [initializeRequestId, pingRequestId, nextJsonRpcId]

/-- Witness for C4 at counter 1, draws 0 and 1. -/
theorem c4_id_sources_witness :
    (0 : Nat) ≠ 1
    ∧ (drawnId 1 0 ≠ drawnId 1 1
      ∧ initializeRequestId 1 = (1, 2)
      ∧ pingRequestId 1 = (1, 2)
      ∧ (initializeRequestId 1).1 ≠ (pingRequestId (initializeRequestId 1).2).1
      ∧ (∀ k, (detailsRequestId k).1 = 2 ∧ (detailsRequestId k).2 = k)
      ∧ (∀ nowMs k, (runRequestId nowMs k).1 = nowMs ∧ (runRequestId nowMs k).2 = k)) :=
  ⟨by decide, c4_id_sources 1 0 1 (by decide)⟩

/-- C5, counterexample.  `killProcess` deletes the registry entry
(mcpManager.js line 634), so immediately after a successful `killProcess`
the key is absent and `isHealthy` reports the not-found outcome, not the
killed outcome the claim promises. -/
theorem c5_counterexample_killProcess_then_not_found :
    (killProcess stC "c" "s").1 = true
    ∧ isHealthy (fun _ => true) (killProcess stC "c" "s").2 "c" "s"
        = { healthy := false, reason := some "Process not found" }
    ∧ ({ healthy := false, reason := some "Process not found" } : Health)
        ≠ { healthy := false, reason := some "Process killed" } := by decide

/-- C5, amended.  `isHealthy` returns exactly one of five outcomes:
not-found for a key absent from the registry — which is also the state right
after a successful `killProcess`, because it removes the entry; killed for a
registered entry whose process handle carries the killed flag; not
initialized for a live entry whose handshake has not completed; zombie for a
live initialized entry whose pid fails the OS liveness probe; healthy for a
live initialized entry whose pid answers the probe. -/
theorem c5_isHealthy_outcomes (probe : Nat → Bool) (st : MgrState) (c s : String) :
    (lookupA st.registry (generateKey c s) = none →
      isHealthy probe st c s = { healthy := false, reason := some "Process not found" })
    ∧ (∀ e, lookupA st.registry (generateKey c s) = some e →
        (e.killed = true →
          isHealthy probe st c s
            = { healthy := false, reason := some "Process killed" })
        ∧ (e.killed = false → e.isInitialized = false →
          isHealthy probe st c s
            = { healthy := false, reason := some "Not initialized" })
        ∧ (e.killed = false → e.isInitialized = true → probe e.pid = false →
          isHealthy probe st c s
            = { healthy := false, reason := some "Process not responding (zombie)" })
        ∧ (e.killed = false → e.isInitialized = true → probe e.pid = true →
          isHealthy probe st c s = { healthy := true, reason := none }))
    ∧ (∀ st2, (killProcess st2 c s).1 = true →
        isHealthy probe (killProcess st2 c s).2 c s
          = { healthy := false, reason := some "Process not found" })
    ∧ (isHealthy probe st c s = { healthy := false, reason := some "Process not found" }
      ∨ isHealthy probe st c s = { healthy := false, reason := some "Process killed" }
      ∨ isHealthy probe st c s = { healthy := false, reason := some "Not initialized" }
      ∨ isHealthy probe st c s
          = { healthy := false, reason := some "Process not responding (zombie)" }
      ∨ isHealthy probe st c s = { healthy := true, reason := none }) := by
  refine ⟨?_, ?_, ?_, ?_⟩
  · intro hnone
    simp [isHealthy, hnone]
  · intro e he
    refine ⟨?_, ?_, ?_, ?_⟩
    · intro hk
      simp [isHealthy, he, hk]
    · intro hk hi
      simp [isHealthy, he, hk, hi]
    · intro hk hi hp
      simp [isHealthy, he, hk, hi, hp]
    · intro hk hi hp
      simp [isHealthy, he, hk, hi, hp]
  · intro st2 hkill
    cases hh : lookupA st2.registry (generateKey c s) with
    | none => simp [killProcess, hh] at hkill
    | some e =>
      cases hk : e.killed with
      | true => simp [killProcess, hh, hk] at hkill
      | false =>
        have hreg : (killProcess st2 c s).2.registry
            = eraseA st2.registry (generateKey c s) := by
          simp [killProcess, hh, hk]
        simp [isHealthy, hreg, lookupA_eraseA_self]
  · cases hh : lookupA st.registry (generateKey c s) with
    | none =>
      left
      simp [isHealthy, hh]
    | some e =>
      cases hk : e.killed with
      | true =>
        right; left
        simp [isHealthy, hh, hk]
      | false =>
        cases hi : e.isInitialized with
        | false =>
          right; right; left
          simp [isHealthy, hh, hk, hi]
        | true =>
          cases hp : probe e.pid with
          | false =>
            right; right; right; left
            simp [isHealthy, hh, hk, hi, hp]
          | true =>
            right; right; right; right
            simp [isHealthy, hh, hk, hi, hp]

/-- Witness for C5: an unknown key yields the not-found outcome. -/
theorem c5_isHealthy_outcomes_witness :
    lookupA stC.registry (generateKey "x" "y") = none
    ∧ isHealthy (fun _ => true) stC "x" "y"
        = { healthy := false, reason := some "Process not found" } :=
  ⟨by decide, (c5_isHealthy_outcomes (fun _ => true) stC "x" "y").1 (by decide)⟩

/-- C6, counterexample.  In state `stB` the entry for `c:s` is live but its
handshake has not completed, and `getProcess` nevertheless returns the
handle (pid 1): `getProcess` checks only presence and `proc.killed`, not
`isInitialized`. -/
theorem c6_counterexample_getProcess_ignores_handshake :
    (lookupA stB.registry "c:s").map Entry.isInitialized = some false
    ∧ (lookupA stB.registry "c:s").map Entry.killed = some false
    ∧ (getProcess stB 7 "c" "s").1 = some 1 := by decide

/-- C6, amended.  `getProcess` returns a handle exactly for a present,
not-killed entry, initialized or not; it is the consumer-facing route guard
— `getProcess`, the `proc.killed` re-check, then the `isInitialized` check —
that only proceeds when the entry is both live and initialized. -/
theorem c6_usable_gate (st : MgrState) (now : Int) (c s : String) :
    (∀ pid, (getProcess st now c s).1 = some pid →
      ∃ e, lookupA st.registry (generateKey c s) = some e
        ∧ e.killed = false ∧ pid = e.pid)
    ∧ (∀ pid, (runRouteGate st now c s).1 = RouteGate.proceed pid →
      ∃ e, lookupA (runRouteGate st now c s).2.registry (generateKey c s) = some e
        ∧ e.killed = false ∧ e.isInitialized = true ∧ pid = e.pid) := by
  constructor
  · intro pid hp
    cases hh : lookupA st.registry (generateKey c s) with
    | none => simp [getProcess, hh] at hp
    | some e =>
      cases hk : e.killed with
      | true => simp [getProcess, hh, hk] at hp
      | false =>
        refine ⟨e, rfl, hk, ?_⟩
        simp [getProcess, hh, hk] at hp
        exact hp.symm
  · intro pid hp
    cases hh : lookupA st.registry (generateKey c s) with
    | none =>
      have hg1 : (getProcess st now c s).1 = none := by simp [getProcess, hh]
      simp [runRouteGate, hg1] at hp
    | some pre =>
      cases hkp : pre.killed with
      | true =>
        have hg1 : (getProcess st now c s).1 = none := by simp [getProcess, hh, hkp]
        simp [runRouteGate, hg1] at hp
      | false =>
        have hg1 : (getProcess st now c s).1 = some pre.pid := by
          simp [getProcess, hh, hkp]
        have hr : lookupA (getProcess st now c s).2.registry (generateKey c s)
            = some { pre with lastHit := now } := by
          simp [getProcess, hh, hkp, lookupA_mapEntries]
        have hini : isInitialized (getProcess st now c s).2 c s = pre.isInitialized := by
          simp [isInitialized, hr, hkp]
        cases hpi : pre.isInitialized with
        | false =>
          rw [hpi] at hini
          simp [runRouteGate, hg1, hr, hini, hkp] at hp
        | true =>
          rw [hpi] at hini
          have hgate : runRouteGate st now c s
              = (RouteGate.proceed pre.pid, (getProcess st now c s).2) := by
            simp [runRouteGate, hg1, hr, hini, hkp]
          rw [hgate] at hp
          simp only [RouteGate.proceed.injEq] at hp
          refine ⟨{ pre with lastHit := now }, ?_, hkp, hpi, ?_⟩
          · rw [hgate]
            exact hr
          · simp [← hp]

/-- Witness for C6: in `stC` the route guard proceeds with pid 1 for a live,
initialized entry. -/
theorem c6_usable_gate_witness :
    (runRouteGate stC 7 "c" "s").1 = RouteGate.proceed 1
    ∧ (∃ e, lookupA (runRouteGate stC 7 "c" "s").2.registry (generateKey "c" "s") = some e
        ∧ e.killed = false ∧ e.isInitialized = true ∧ 1 = e.pid) :=
  ⟨by decide, (c6_usable_gate stC 7 "c" "s").2 1 (by decide)⟩

/-- C7, counterexample.  A process exit at 0 ms with exit code 1 while a
GET /details call (default 3000 ms window) is pending does not resolve the
call early: the response still arrives at 3000 ms as an ordinary completed
response without the exit code and signal, because only POST /run installs
an exit listener. -/
theorem c7_counterexample_details_waits_out_timeout :
    detailsResponse API_RESPONSE_TIMEOUT_MS
        (some { atMs := 0, code := some 1, signal := none })
      = (3000, CallOutcome.completedAtTimeout)
    ∧ (3000 : Int) ≠ 0 := by decide

/-- C7, amended.  A POST /run tool invocation whose target process exits
before the timeout resolves at the exit instant with a failure reporting the
exit code and signal; the GET /details tools/list query installs no exit
listener and always answers at its full timeout. -/
theorem c7_run_exit_immediate (timeoutMs : Int) (ex : ExitInfo)
    (h : ex.atMs < timeoutMs) :
    runResponse timeoutMs (some ex)
      = (ex.atMs, CallOutcome.terminatedDuring ex.code ex.signal)
    ∧ (∀ t e2, detailsResponse t e2 = (t, CallOutcome.completedAtTimeout))
    ∧ API_RUN_TIMEOUT_MS = 5000
    ∧ API_RESPONSE_TIMEOUT_MS = 3000 := by
  refine ⟨?_, fun t e2 => rfl, rfl, rfl⟩
  simp [runResponse, h]

/-- Witness for C7: exit at 100 ms with code 0 and signal SIGTERM, inside
the default 5000 ms run window. -/
theorem c7_run_exit_immediate_witness :
    ((100 : Int) < 5000)
    ∧ (runResponse 5000 (some { atMs := 100, code := some 0, signal := some "SIGTERM" })
        = (100, CallOutcome.terminatedDuring (some 0) (some "SIGTERM"))
      ∧ (∀ t e2, detailsResponse t e2 = (t, CallOutcome.completedAtTimeout))
      ∧ API_RUN_TIMEOUT_MS = 5000
      ∧ API_RESPONSE_TIMEOUT_MS = 3000) :=
  ⟨by decide,
   c7_run_exit_immediate 5000 { atMs := 100, code := some 0, signal := some "SIGTERM" }
     (by decide)⟩

theorem zip_prev_map_eq_redactArgsFrom (prev : String) (l : List String) :
    (l.zip (prev :: l)).map (fun p => if isSensitiveName p.2 then REDACTED else p.1)
      = redactArgsFrom prev l := by
  induction l generalizing prev with
  | nil => rfl
  | cons a t ih => simp [redactArgsFrom, ih a]

theorem redactArgs_eq_from (args : List String) :
    redactArgs args = redactArgsFrom "" args :=
  zip_prev_map_eq_redactArgsFrom "" args

theorem redactArgsFrom_get (prev : String) (args : List String) (i : Nat) :
    (redactArgsFrom prev args).get? i
      = (args.get? i).map (fun a =>
          if isSensitiveName (((prev :: args).get? i).getD "") then REDACTED else a) := by
  induction args generalizing prev i with
  | nil => simp [redactArgsFrom]
  | cons a t ih =>
    cases i with
    | zero => simp [redactArgsFrom]
    | succ n => simpa [redactArgsFrom] using ih a n

theorem mem_listClientServers {st : MgrState} {cid : String} {summ : ServerSummary}
    (h : summ ∈ listClientServers st cid) :
    ∃ p, p ∈ st.registry ∧ p.2.killed = false ∧ p.2.clientId = cid
      ∧ summ.config = redactSensitiveConfig p.2.config ∧ summ.uniqueKey = p.1 := by
  simp only [listClientServers, List.mem_map, List.mem_filter] at h
  obtain ⟨p, ⟨hpmem, hcond⟩, hsumm⟩ := h
  simp only [Bool.and_eq_true, decide_eq_true_eq, Bool.not_eq_true'] at hcond
  exact ⟨p, hpmem, hcond.2, hcond.1, by rw [← hsumm], by rw [← hsumm]⟩

theorem mem_listActiveProcesses {st : MgrState} {summ : ProcSummary}
    (h : summ ∈ listActiveProcesses st) :
    ∃ p, p ∈ st.registry ∧ p.2.killed = false
      ∧ summ.config = redactSensitiveConfig p.2.config ∧ summ.uniqueKey = p.1 := by
  simp only [listActiveProcesses, List.mem_map, List.mem_filter] at h
  obtain ⟨p, ⟨hpmem, hcond⟩, hsumm⟩ := h
  simp only [Bool.not_eq_true'] at hcond
  exact ⟨p, hpmem, hcond, by rw [← hsumm], by rw [← hsumm]⟩

/-- C8.  Every env value whose variable name matches the sensitive list is
the fixed redaction marker in the redacted config; every argument whose
preceding original argument matches the list is the marker; every config
surfaced by the listing operations is the redacted one; and on the
specification's example config the redacted output is exactly
`\x7benv: \x7bGITHUB_TOKEN: [REDACTED]\x7d, args: [--key, [REDACTED]]\x7d`,
whose rendered command line contains no "xyz" and whose env values contain
no "abc". -/
theorem c8_redaction (c : Config) :
    (∀ k v, (k, v) ∈ (redactSensitiveConfig c).env → isSensitiveName k = true →
      v = REDACTED)
    ∧ (∀ i, isSensitiveName ((("" :: c.args).get? i).getD "") = true →
        ∀ harg, ((redactSensitiveConfig c).args).get? i = some harg → harg = REDACTED)
    ∧ redactSensitiveConfig cfgSecret
        = { command := "npx", args := ["--key", REDACTED],
            env := [("GITHUB_TOKEN", REDACTED)] }
    ∧ strIncludes (String.intercalate " "
        ((redactSensitiveConfig cfgSecret).command :: (redactSensitiveConfig cfgSecret).args))
        "xyz" = false
    ∧ (∀ kk vv, (kk, vv) ∈ (redactSensitiveConfig cfgSecret).env →
        strIncludes vv "abc" = false)
    ∧ (∀ st cid summ, summ ∈ listClientServers st cid →
        ∃ p, p ∈ st.registry ∧ summ.config = redactSensitiveConfig p.2.config)
    ∧ (∀ st summ, summ ∈ listActiveProcesses st →
        ∃ p, p ∈ st.registry ∧ summ.config = redactSensitiveConfig p.2.config) := by
  refine ⟨?_, ?_, by decide, by decide, ?_, ?_, ?_⟩
  · intro k v hmem hsens
    simp only [redactSensitiveConfig, redactEnv, List.mem_map] at hmem
    obtain ⟨p, hp, heq⟩ := hmem
    by_cases hs : isSensitiveName p.1
    · rw [if_pos hs] at heq
      cases heq
      rfl
    · rw [if_neg hs] at heq
      have hk : p.1 = k := congrArg Prod.fst heq
      rw [hk] at hs
      rw [hsens] at hs
      exact absurd rfl hs
  · intro i hsens harg hget
    have hform : (redactSensitiveConfig c).args = redactArgsFrom "" c.args :=
      redactArgs_eq_from c.args
    rw [hform, redactArgsFrom_get, hsens] at hget
    cases hl : c.args.get? i with
    | none =>
      rw [hl] at hget
      simp at hget
    | some a =>
      rw [hl] at hget
      simp at hget
      exact hget.symm
  · intro kk vv hmem
    have hg : isSensitiveName "GITHUB_TOKEN" = true := by decide
    have : (kk, vv) ∈ [("GITHUB_TOKEN", REDACTED)] := by
      simpa [redactSensitiveConfig, redactEnv, cfgSecret, hg] using hmem
    rw [List.mem_singleton] at this
    cases this
    decide
  · intro st cid summ h
    obtain ⟨p, hpmem, _, _, hconf, _⟩ := mem_listClientServers h
    exact ⟨p, hpmem, hconf⟩
  · intro st summ h
    obtain ⟨p, hpmem, _, hconf, _⟩ := mem_listActiveProcesses h
    exact ⟨p, hpmem, hconf⟩

/-- Witness for C8: the `GITHUB_TOKEN` value of the example config is the
marker in the redacted output. -/
theorem c8_redaction_witness :
    ("GITHUB_TOKEN", REDACTED) ∈ (redactSensitiveConfig cfgSecret).env
    ∧ isSensitiveName "GITHUB_TOKEN" = true
    ∧ REDACTED = REDACTED :=
  ⟨by decide, by decide,
   (c8_redaction cfgSecret).1 "GITHUB_TOKEN" REDACTED (by decide) (by decide)⟩

theorem lookupA_foldl_eraseA {α : Type} (ks : List String) (r : List (String × α))
    (k : String) :
    lookupA (ks.foldl (fun acc key => eraseA acc key) r) k
      = if k ∈ ks then none else lookupA r k := by
  induction ks generalizing r with
  | nil => simp
  | cons k0 t ih =>
    simp only [List.foldl_cons]
    rw [ih]
    by_cases hk : k = k0
    · subst hk
      by_cases hmem : k ∈ t
      · simp [hmem]
      · simp [hmem, lookupA_eraseA_self]
    · by_cases hmem : k ∈ t
      · simp [hmem, hk]
      · simp [hmem, hk, lookupA_eraseA_ne _ _ _ hk]

theorem mem_expiredKeys (now : Int) (st : MgrState) (k : String) (e : Entry)
    (hl : lookupA st.registry k = some e) (hexp : now - e.lastHit > e.ttlMs) :
    k ∈ expiredKeys now st := by
  have hm : (k, e) ∈ st.registry := lookupA_mem hl
  have hmf : (k, e) ∈ st.registry.filter
      (fun p => decide (now - p.2.lastHit > p.2.ttlMs)) :=
    List.mem_filter.mpr ⟨hm, by simpa using hexp⟩
  exact List.mem_map_of_mem Prod.fst hmf

theorem expiredKeys_sound (now : Int) (st : MgrState) (k : String)
    (hnd : (st.registry.map Prod.fst).Nodup) (hk : k ∈ expiredKeys now st) :
    ∃ e, lookupA st.registry k = some e ∧ now - e.lastHit > e.ttlMs := by
  simp only [expiredKeys, List.mem_map, List.mem_filter] at hk
  obtain ⟨p, ⟨hmem, hcond⟩, hfst⟩ := hk
  refine ⟨p.2, ?_, by simpa using hcond⟩
  have hp : (k, p.2) ∈ st.registry := by
    rw [← hfst]
    exact hmem
  exact mem_lookupA hnd hp

/-- C9.  One sweep cycle (a total function, hence terminating) evicts
exactly the entries whose idle time `now - lastHit` strictly exceeds their
own `ttlMs`: such keys look up to nothing afterwards, every other key still
maps to the very same entry, the in-flight map is untouched, and an evicted
key no longer appears in the all-entries listing. -/
theorem c9_sweep_exact (now : Int) (st : MgrState) (k : String)
    (hnd : (st.registry.map Prod.fst).Nodup) :
    (∀ e, lookupA st.registry k = some e →
      lookupA (sweepExpiredProcesses now st).registry k
        = if now - e.lastHit > e.ttlMs then none else some e)
    ∧ (lookupA st.registry k = none →
      lookupA (sweepExpiredProcesses now st).registry k = none)
    ∧ (sweepExpiredProcesses now st).inFlight = st.inFlight
    ∧ (∀ e, lookupA st.registry k = some e → now - e.lastHit > e.ttlMs →
        ∀ summ ∈ listActiveProcesses (sweepExpiredProcesses now st),
          summ.uniqueKey ≠ k) := by
  have hchar : ∀ k2, lookupA (sweepExpiredProcesses now st).registry k2
      = if k2 ∈ expiredKeys now st then none else lookupA st.registry k2 := by
    intro k2
    exact lookupA_foldl_eraseA _ _ _
  refine ⟨?_, ?_, rfl, ?_⟩
  · intro e he
    rw [hchar k]
    by_cases hexp : now - e.lastHit > e.ttlMs
    · simp [hexp, mem_expiredKeys now st k e he hexp]
    · have hnotmem : k ∉ expiredKeys now st := by
        intro hk
        obtain ⟨e2, he2, hexp2⟩ := expiredKeys_sound now st k hnd hk
        rw [he] at he2
        cases he2
        exact hexp hexp2
      simp [hnotmem, hexp, he]
  · intro hnone
    rw [hchar k]
    by_cases hmem : k ∈ expiredKeys now st
    · simp [hmem]
    · simp [hmem, hnone]
  · intro e he hexp summ hsumm hkq
    have hlook : lookupA (sweepExpiredProcesses now st).registry k = none := by
      rw [hchar k]
      simp [mem_expiredKeys now st k e he hexp]
    obtain ⟨⟨pk, pe⟩, hpmem, _, _, hkey⟩ := mem_listActiveProcesses hsumm
    have hpk : pk = k := by
      rw [← hkq, hkey]
    rw [hpk] at hpmem
    exact lookupA_eq_none hlook pe hpmem

/-- Witness for C9: in `stC` the entry for `c:s` was last hit at 0 with a
900000 ms TTL; the sweep at 1000000 evicts it. -/
theorem c9_sweep_exact_witness :
    (stC.registry.map Prod.fst).Nodup
    ∧ lookupA stC.registry "c:s" = some eC
    ∧ lookupA (sweepExpiredProcesses 1000000 stC).registry "c:s" = none := by
  refine ⟨by decide, by decide, ?_⟩
  have h := (c9_sweep_exact 1000000 stC "c:s" (by decide)).1 eC (by decide)
  rwa [if_pos (by decide)] at h

theorem lookupA_ping (now intervalMs : Int) (writeOk : Nat → Bool) (st : MgrState)
    (k : String) :
    lookupA (pingActiveConnections now intervalMs writeOk st).registry k
      = (lookupA st.registry k).map (fun e =>
          if pingDue now intervalMs e && writeOk e.pid then { e with lastPing := some now }
          else e) :=
  lookupA_mapEntries _ st.registry k

/-- C10.  A heartbeat cycle can change only `lastPing`: every entry surviving
`pingActiveConnections` agrees with its predecessor on every other field —
in particular `lastHit` — and its `lastPing` is either unchanged or set to
the cycle's timestamp.  Consequently an entry that is only heartbeat-pinged
but never accessed keeps its old `lastHit` and is still evicted by a sweep
once its TTL has elapsed: heartbeats do not extend the manager's own idle
lifetime. -/
theorem c10_heartbeat_frame (now intervalMs : Int) (writeOk : Nat → Bool)
    (st : MgrState) (k : String) :
    (∀ e', lookupA (pingActiveConnections now intervalMs writeOk st).registry k = some e' →
      ∃ e, lookupA st.registry k = some e
        ∧ e'.pid = e.pid ∧ e'.killed = e.killed ∧ e'.config = e.config
        ∧ e'.configHash = e.configHash ∧ e'.lastHit = e.lastHit ∧ e'.ttlMs = e.ttlMs
        ∧ e'.clientId = e.clientId ∧ e'.MCPServerName = e.MCPServerName
        ∧ e'.isInitialized = e.isInitialized
        ∧ (e'.lastPing = e.lastPing ∨ e'.lastPing = some now))
    ∧ (∀ e now2, lookupA st.registry k = some e → now2 - e.lastHit > e.ttlMs →
      lookupA (sweepExpiredProcesses now2
          (pingActiveConnections now intervalMs writeOk st)).registry k = none) := by
  constructor
  · intro e' he'
    rw [lookupA_ping] at he'
    cases hl : lookupA st.registry k with
    | none =>
      rw [hl] at he'
      simp at he'
    | some e =>
      rw [hl] at he'
      simp only [Option.map_some'] at he'
      refine ⟨e, rfl, ?_⟩
      by_cases hc : (pingDue now intervalMs e && writeOk e.pid) = true
      · rw [if_pos hc] at he'
        cases he'
        exact ⟨rfl, rfl, rfl, rfl, rfl, rfl, rfl, rfl, rfl, Or.inr rfl⟩
      · rw [if_neg hc] at he'
        cases he'
        exact ⟨rfl, rfl, rfl, rfl, rfl, rfl, rfl, rfl, rfl, Or.inl rfl⟩
  · intro e now2 he hexp
    have he2 : lookupA (pingActiveConnections now intervalMs writeOk st).registry k
        = some (if pingDue now intervalMs e && writeOk e.pid
            then { e with lastPing := some now } else e) := by
      rw [lookupA_ping, he]
      rfl
    have hexp2 : now2 - (if pingDue now intervalMs e && writeOk e.pid
        then { e with lastPing := some now } else e).lastHit
        > (if pingDue now intervalMs e && writeOk e.pid
            then { e with lastPing := some now } else e).ttlMs := by
      by_cases hc : (pingDue now intervalMs e && writeOk e.pid) = true
      · simpa [hc] using hexp
      · simpa [hc] using hexp
    have hkmem := mem_expiredKeys now2 _ k _ he2 hexp2
    simp only [sweepExpiredProcesses]
    rw [lookupA_foldl_eraseA]
    simp [hkmem]

/-- Witness for C10: the `c:s` entry of `stC` (lastHit 0, TTL 900000 ms) is
pinged at 100 ms — only its `lastPing` changes — and the sweep at 1000000 ms
still evicts it. -/
theorem c10_heartbeat_frame_witness :
    lookupA stC.registry "c:s" = some eC
    ∧ ((1000000 : Int) - eC.lastHit > eC.ttlMs)
    ∧ lookupA (sweepExpiredProcesses 1000000
        (pingActiveConnections 100 60000 (fun _ => true) stC)).registry "c:s" = none := by
  refine ⟨by decide, by decide, ?_⟩
  exact (c10_heartbeat_frame 100 60000 (fun _ => true) stC "c:s").2 eC 1000000
    (by decide) (by decide)

end MCP
